import Mathlib

/-!
Formal model of the PokéPipeline ETL core (src/pokepipeline), together with
theorems checking the design document's claims against it.

Modelling conventions:
* Python `int` is `Int`; Python `float` arithmetic is modelled over `ℚ`
  (every operation the pipeline performs on weights is a single exact
  division by 10, and BMI one exact division).
* A SQLAlchemy table is an association list from primary key to row, and
  `session.merge` is an in-place insert-or-replace keyed by the primary key
  (`upsertA` below).  A Python `dict` built by indexed assignment is the
  same structure (insertion ordered, update in place).
* Fallible code returns `Except`/`Option`; the network is an oracle mapping
  an attempt index to the outcome of that attempt.
-/

namespace PokePipeline

/-! ### Association-list tables: `session.merge` / Python dict semantics -/

variable {κ ν : Type} [DecidableEq κ]

/-- Insert-or-replace keyed by `k`: if `k` is present, overwrite its value in
place; otherwise append `(k, v)`.  This is `session.merge` on a table whose
primary key is `κ`, and also Python `d[k] = v` on an insertion-ordered dict. -/
def upsertA (k : κ) (v : ν) : List (κ × ν) → List (κ × ν)
  | [] => [(k, v)]
  | (k', v') :: m => if k = k' then (k, v) :: m else (k', v') :: upsertA k v m

/-- Look up the value stored at key `k`. -/
def lookupA (k : κ) : List (κ × ν) → Option ν
  | [] => none
  | (k', v') :: m => if k = k' then some v' else lookupA k m

/-- Apply a list of keyed writes left to right (a `for` loop of merges). -/
def applyW (w : List (κ × ν)) (m : List (κ × ν)) : List (κ × ν) :=
  w.foldl (fun acc kv => upsertA kv.1 kv.2 acc) m

/-- The last value a write list assigns to key `k`, if any. -/
def lastWrite (k : κ) : List (κ × ν) → Option ν
  | [] => none
  | (k', v) :: w =>
    match lastWrite k w with
    | some u => some u
    | none => if k = k' then some v else none

theorem lookupA_upsertA (k k' : κ) (v : ν) (m : List (κ × ν)) :
    lookupA k' (upsertA k v m) = if k' = k then some v else lookupA k' m := by
  induction m with
  | nil => simp [upsertA, lookupA]
  | cons hd tl ih =>
    obtain ⟨k₀, v₀⟩ := hd
    by_cases hk : k = k₀
    · subst hk
      by_cases hk' : k' = k <;> simp [upsertA, lookupA, hk']
    · by_cases hk' : k' = k₀
      · subst hk'
        have hne : ¬k' = k := fun h => hk h.symm
        simp [upsertA, lookupA, hk, hne]
      · simp [upsertA, lookupA, hk, hk', ih]

theorem length_upsertA_of_isSome (k : κ) (v : ν) (m : List (κ × ν))
    (h : (lookupA k m).isSome) : (upsertA k v m).length = m.length := by
  induction m with
  | nil => simp [lookupA] at h
  | cons hd tl ih =>
    obtain ⟨k₀, v₀⟩ := hd
    by_cases hk : k = k₀
    · simp [upsertA, hk]
    · simp only [lookupA, if_neg hk] at h
      simp [upsertA, hk, ih h]

theorem lookupA_applyW (k : κ) (w m : List (κ × ν)) :
    lookupA k (applyW w m) =
      match lastWrite k w with
      | some v => some v
      | none => lookupA k m := by
  induction w generalizing m with
  | nil => simp [applyW, lastWrite]
  | cons hd tl ih =>
    obtain ⟨k₀, v₀⟩ := hd
    show lookupA k (applyW tl (upsertA k₀ v₀ m)) = _
    rw [ih]
    cases hlw : lastWrite k tl with
    | some u => simp [lastWrite, hlw]
    | none =>
      rw [lookupA_upsertA]
      by_cases hk : k = k₀
      · subst hk
        simp [lastWrite, hlw]
      · simp [lastWrite, hlw, hk]

theorem lastWrite_isSome_of_mem (k : κ) (v : ν) (w : List (κ × ν))
    (h : (k, v) ∈ w) : (lastWrite k w).isSome := by
  induction w with
  | nil => simp at h
  | cons hd tl ih =>
    obtain ⟨k₀, v₀⟩ := hd
    cases hlw : lastWrite k tl with
    | some u => simp [lastWrite, hlw]
    | none =>
      rcases List.mem_cons.1 h with h₁ | h₂
      · rw [Prod.mk.injEq] at h₁
        obtain ⟨hk, -⟩ := h₁
        subst hk
        simp [lastWrite, hlw]
      · exact absurd (ih h₂) (by simp [hlw])

theorem isSome_lookupA_applyW_of_mem (k : κ) (v : ν) (w m : List (κ × ν))
    (h : (k, v) ∈ w) : (lookupA k (applyW w m)).isSome := by
  rw [lookupA_applyW]
  cases hlw : lastWrite k w with
  | some u => simp
  | none => exact absurd (lastWrite_isSome_of_mem k v w h) (by simp [hlw])

theorem isSome_lookupA_upsertA (k k' : κ) (v : ν) (m : List (κ × ν))
    (h : (lookupA k' m).isSome) : (lookupA k' (upsertA k v m)).isSome := by
  rw [lookupA_upsertA]
  by_cases hk : k' = k <;> simp [hk, h]

theorem length_applyW_of_forall_isSome (w m : List (κ × ν))
    (h : ∀ kv ∈ w, (lookupA kv.1 m).isSome) :
    (applyW w m).length = m.length := by
  induction w generalizing m with
  | nil => rfl
  | cons hd tl ih =>
    obtain ⟨k₀, v₀⟩ := hd
    show (applyW tl (upsertA k₀ v₀ m)).length = m.length
    rw [ih (upsertA k₀ v₀ m)
      (fun kv hkv => isSome_lookupA_upsertA k₀ kv.1 v₀ m (h kv (List.mem_cons_of_mem _ hkv)))]
    exact length_upsertA_of_isSome k₀ v₀ m (h (k₀, v₀) (List.mem_cons_self _ _))

/-- Replaying the same write list leaves every lookup unchanged. -/
theorem lookupA_applyW_applyW (k : κ) (w m : List (κ × ν)) :
    lookupA k (applyW w (applyW w m)) = lookupA k (applyW w m) := by
  rw [lookupA_applyW, lookupA_applyW]
  cases lastWrite k w <;> simp

/-- Replaying the same write list leaves the row count unchanged. -/
theorem length_applyW_applyW (w m : List (κ × ν)) :
    (applyW w (applyW w m)).length = (applyW w m).length :=
  length_applyW_of_forall_isSome w (applyW w m)
    (fun kv hkv => isSome_lookupA_applyW_of_mem kv.1 kv.2 w m hkv)

theorem applyW_append (w₁ w₂ m : List (κ × ν)) :
    applyW (w₁ ++ w₂) m = applyW w₂ (applyW w₁ m) := by
  simp [applyW, List.foldl_append]

/-! ### Cross-reference id extraction (`_id_from_url`, etl.py lines 26-28)

`int(url.rstrip("/").split("/")[-1])`.  Python strings are lists of
characters; `rstrip("/")` removes every trailing `'/'`, `split("/")` splits
on single slashes keeping empty segments, `[-1]` takes the last segment
(`split` never returns an empty list), and `int` parses an optional sign
followed by digits, raising (here: `none`) on anything else. -/

/-- Python `s.split("/")` on a list of characters. -/
def splitSlash : List Char → List (List Char)
  | [] => [[]]
  | c :: cs =>
    if c = '/' then [] :: splitSlash cs
    else
      match splitSlash cs with
      | [] => [[c]]
      | seg :: rest => (c :: seg) :: rest

/-- Python `int(...)` on a digit string: the numeric value, if the string is
a nonempty run of decimal digits, optionally preceded by `'-'`. -/
def parseNatDigits (cs : List Char) : Option Nat :=
  if cs = [] then none
  else if cs.all Char.isDigit then
    some (cs.foldl (fun acc c => 10 * acc + (c.toNat - 48)) 0)
  else none

def parseInt (cs : List Char) : Option Int :=
  match cs with
  | '-' :: rest => (parseNatDigits rest).map (fun n => -(n : Int))
  | _ => (parseNatDigits cs).map (fun n => (n : Int))

/-- `_id_from_url` (etl.py): strip trailing slashes, split on `'/'`, parse
the last segment. -/
def idFromUrlCore (cs : List Char) : Option Int :=
  (splitSlash (cs.rdropWhile (· == '/'))).getLast? >>= parseInt

def id_from_url (url : String) : Option Int :=
  idFromUrlCore url.data

/-- The extraction procedure as the design document words it: split the
locator on `'/'`, drop the empty trailing segment(s), parse the last
remaining segment as an integer. -/
def specRefIdCore (cs : List Char) : Option Int :=
  ((splitSlash cs).rdropWhile (·.isEmpty)).getLast? >>= parseInt

def spec_ref_id (url : String) : Option Int :=
  specRefIdCore url.data

theorem splitSlash_ne_nil (cs : List Char) : splitSlash cs ≠ [] := by
  cases cs with
  | nil => simp [splitSlash]
  | cons c cs =>
    by_cases hc : c = '/'
    · simp [splitSlash, hc]
    · cases h : splitSlash cs <;> simp [splitSlash, hc, h]

theorem splitSlash_concat_slash (t : List Char) :
    splitSlash (t ++ ['/']) = splitSlash t ++ [[]] := by
  induction t with
  | nil => rfl
  | cons c cs ih =>
    by_cases hc : c = '/'
    · simp [splitSlash, hc, ih]
    · cases h : splitSlash cs with
      | nil => exact absurd h (splitSlash_ne_nil cs)
      | cons seg rest =>
        simp [splitSlash, hc, ih, h]

theorem splitSlash_concat_ne (c : Char) (hc : ¬c = '/') (t : List Char) :
    ∃ front last', splitSlash t = front ++ [last'] ∧
      splitSlash (t ++ [c]) = front ++ [last' ++ [c]] := by
  induction t with
  | nil => exact ⟨[], [], by simp [splitSlash], by simp [splitSlash, hc]⟩
  | cons d ds ih =>
    obtain ⟨front, last', h₁, h₂⟩ := ih
    by_cases hd : d = '/'
    · exact ⟨[] :: front, last', by simp [splitSlash, hd, h₁],
        by simp [splitSlash, hd, h₂]⟩
    · cases front with
      | nil =>
        simp only [List.nil_append] at h₁ h₂
        refine ⟨[], d :: last', ?_, ?_⟩
        · simp [splitSlash, hd, h₁]
        · simp [splitSlash, hd, h₂]
      | cons f fr =>
        refine ⟨(d :: f) :: fr, last', ?_, ?_⟩
        · simp [splitSlash, hd, h₁]
        · simp [splitSlash, hd, h₂]

/-- The code's extraction and the document's procedure agree on every
string. -/
theorem idFromUrlCore_eq_specRefIdCore (cs : List Char) :
    idFromUrlCore cs = specRefIdCore cs := by
  induction cs using List.reverseRecOn with
  | nil => rfl
  | append_singleton t c ih =>
    by_cases hc : c = '/'
    · subst hc
      have h₁ : List.rdropWhile (· == '/') (t ++ ['/']) =
          List.rdropWhile (· == '/') t :=
        List.rdropWhile_concat_pos _ _ _ (by simp)
      have h₂ : (splitSlash (t ++ ['/'])).rdropWhile (·.isEmpty) =
          (splitSlash t).rdropWhile (·.isEmpty) := by
        rw [splitSlash_concat_slash]
        exact List.rdropWhile_concat_pos _ _ _ (by simp)
      unfold idFromUrlCore specRefIdCore
      rw [h₁, h₂]
      exact ih
    · obtain ⟨front, last', -, h₂⟩ := splitSlash_concat_ne c hc t
      have h₁ : List.rdropWhile (· == '/') (t ++ [c]) = t ++ [c] :=
        List.rdropWhile_concat_neg _ _ _ (by simp [hc])
      have h₃ : (splitSlash (t ++ [c])).rdropWhile (·.isEmpty) =
          front ++ [last' ++ [c]] := by
        rw [h₂]
        exact List.rdropWhile_concat_neg _ _ _ (by simp)
      unfold idFromUrlCore specRefIdCore
      rw [h₁, h₃, h₂, List.getLast?_concat]

/-! ### Transformer (etl.py lines 67-134)

A detail payload is a JSON object; `payload["k"]` on a missing key raises
(the design document's `MalformedPayloadError`), `payload.get("k")` yields
`None`.  Required fields are therefore `Option`s in the model and
`transform_one` returns `Except`.  `int(url...)` failing to parse a locator
is also a malformed payload. -/

inductive MalformedPayloadError : Type
  | mk
deriving DecidableEq

/-- One element of `payload["types"]`: slot plus the nested type reference. -/
structure RawTypeEntry : Type where
  slot : Option Int
  type_name : Option String
  type_url : Option String
deriving DecidableEq

/-- One element of `payload["abilities"]`. -/
structure RawAbilityEntry : Type where
  is_hidden : Option Bool
  slot : Option Int
  ability_name : Option String
  ability_url : Option String
deriving DecidableEq

/-- One element of `payload["stats"]`. -/
structure RawStatEntry : Type where
  base_stat : Option Int
  effort : Option Int
  stat_name : Option String
  stat_url : Option String
deriving DecidableEq

/-- A raw detail payload, with exactly the fields `transform_one` reads.
`base_experience` and the sprite are read with `.get` (optional, no error);
the three lists default to `[]` when absent, so an absent list is the empty
list here. -/
structure RawPayload : Type where
  id : Option Int
  name : Option String
  base_experience : Option Int
  height : Option Int
  weight : Option Int
  sprites_front_default : Option String
  types : List RawTypeEntry
  abilities : List RawAbilityEntry
  stats : List RawStatEntry
deriving DecidableEq

/-- The canonical record (`TPokemon` dataclass, etl.py lines 68-80). -/
structure TPokemon : Type where
  id : Int
  name : String
  base_experience : Option Int
  height_cm : Int
  weight_kg : ℚ
  bmi : Option ℚ
  sprite_url : Option String
  types : List (Int × String × Int)
  abilities : List (Int × String × Bool × Int)
  stats : List (Int × String × Int × Int)
deriving DecidableEq

/-- `_to_cm(dm) = int(dm * 10)` (etl.py line 83). -/
def _to_cm (dm : Int) : Int := dm * 10

/-- `_to_kg(hg) = hg / 10.0` (etl.py line 87), idealized as the exact
rational quotient.  The program divides in IEEE-754 binary64, whose result
is the representable value nearest this quotient (and raises for ints
beyond the double range); every finite binary64 value is a dyadic rational,
so claims about the float's exact value are settled against `IsDyadic`
below, not against this idealization. -/
def _to_kg (hg : Int) : ℚ := (hg : ℚ) / 10

/-- The value set of IEEE-754 binary64 (Python `float`): every finite
double equals `m * 2 ^ e` for integers `m`, `e`, i.e. its value as a
rational is dyadic.  A rational that is not dyadic cannot be stored in a
float exactly, whatever rounding the division performs. -/
def IsDyadic (q : ℚ) : Prop := ∃ (m : Int) (k : Nat), q = (m : ℚ) / 2 ^ k

/-- `_bmi` (etl.py lines 91-93): `m = height_cm / 100.0`;
`weight_kg / (m * m)` if `m > 0`, else `None`. -/
def _bmi (height_cm : Int) (weight_kg : ℚ) : Option ℚ :=
  let m : ℚ := (height_cm : ℚ) / 100
  if 0 < m then some (weight_kg / (m * m)) else none

/-- A `for` loop that builds a list, aborting on the first failure. -/
def mapME {ε α β : Type} (f : α → Except ε β) : List α → Except ε (List β)
  | [] => Except.ok []
  | x :: xs =>
    match f x with
    | Except.error e => Except.error e
    | Except.ok y =>
      match mapME f xs with
      | Except.error e => Except.error e
      | Except.ok ys => Except.ok (y :: ys)

def isErr {ε α : Type} : Except ε α → Bool
  | Except.error _ => true
  | Except.ok _ => false

/-- Body of the `types` loop (etl.py lines 104-108). -/
def transformTypeEntry (t : RawTypeEntry) :
    Except MalformedPayloadError (Int × String × Int) :=
  match t.type_name, t.type_url, t.slot with
  | some n, some u, some s =>
    match id_from_url u with
    | some i => Except.ok (i, n, s)
    | none => Except.error MalformedPayloadError.mk
  | _, _, _ => Except.error MalformedPayloadError.mk

/-- Body of the `abilities` loop (etl.py lines 110-114). -/
def transformAbilityEntry (a : RawAbilityEntry) :
    Except MalformedPayloadError (Int × String × Bool × Int) :=
  match a.ability_name, a.ability_url, a.is_hidden, a.slot with
  | some n, some u, some hid, some s =>
    match id_from_url u with
    | some i => Except.ok (i, n, hid, s)
    | none => Except.error MalformedPayloadError.mk
  | _, _, _, _ => Except.error MalformedPayloadError.mk

/-- Body of the `stats` loop (etl.py lines 116-120). -/
def transformStatEntry (s : RawStatEntry) :
    Except MalformedPayloadError (Int × String × Int × Int) :=
  match s.stat_name, s.stat_url, s.base_stat, s.effort with
  | some n, some u, some b, some e =>
    match id_from_url u with
    | some i => Except.ok (i, n, b, e)
    | none => Except.error MalformedPayloadError.mk
  | _, _, _, _ => Except.error MalformedPayloadError.mk

/-- `transform_one` (etl.py lines 96-134): pure mapping from a raw payload
to the canonical record; any missing required field aborts it. -/
def transform_one (p : RawPayload) : Except MalformedPayloadError TPokemon :=
  match p.id, p.name, p.height, p.weight with
  | some pid, some nm, some h, some w =>
    match mapME transformTypeEntry p.types, mapME transformAbilityEntry p.abilities,
        mapME transformStatEntry p.stats with
    | Except.ok ts, Except.ok ab, Except.ok st =>
      Except.ok
        { id := pid
          name := nm
          base_experience := p.base_experience
          height_cm := _to_cm h
          weight_kg := _to_kg w
          bmi := _bmi (_to_cm h) (_to_kg w)
          sprite_url := p.sprites_front_default
          types := ts
          abilities := ab
          stats := st }
    | Except.error e, _, _ => Except.error e
    | _, Except.error e, _ => Except.error e
    | _, _, Except.error e => Except.error e
  | _, _, _, _ => Except.error MalformedPayloadError.mk

/-- An expected (unconditionally accessed) field is absent somewhere in the
payload. -/
def hasMissingField (p : RawPayload) : Bool :=
  p.id.isNone || p.name.isNone || p.height.isNone || p.weight.isNone ||
    p.types.any (fun t => t.type_name.isNone || t.type_url.isNone || t.slot.isNone) ||
    p.abilities.any (fun a =>
      a.ability_name.isNone || a.ability_url.isNone || a.is_hidden.isNone || a.slot.isNone) ||
    p.stats.any (fun s =>
      s.stat_name.isNone || s.stat_url.isNone || s.base_stat.isNone || s.effort.isNone)

theorem length_mapME_ok {ε α β : Type} (f : α → Except ε β) (l : List α)
    (ys : List β) (h : mapME f l = Except.ok ys) : ys.length = l.length := by
  induction l generalizing ys with
  | nil => simp [mapME] at h; simp [← h]
  | cons x xs ih =>
    simp only [mapME] at h
    cases hx : f x with
    | error e => rw [hx] at h; exact absurd h (by simp)
    | ok y =>
      rw [hx] at h
      cases hxs : mapME f xs with
      | error e => rw [hxs] at h; exact absurd h (by simp)
      | ok ys' =>
        rw [hxs] at h
        obtain rfl : y :: ys' = ys := by simpa using h
        simp [ih ys' hxs]

theorem isErr_mapME_of_mem {ε α β : Type} (f : α → Except ε β) (l : List α)
    (x : α) (hx : x ∈ l) (he : isErr (f x)) : isErr (mapME f l) := by
  induction l with
  | nil => simp at hx
  | cons y ys ih =>
    rcases List.mem_cons.1 hx with rfl | hmem
    · cases hfx : f x with
      | error e => simp [mapME, hfx, isErr]
      | ok v => rw [hfx] at he; simp [isErr] at he
    · cases hfy : f y with
      | error e => simp [mapME, hfy, isErr]
      | ok v =>
        have := ih hmem
        cases hrec : mapME f ys with
        | error e => simp [mapME, hfy, hrec, isErr]
        | ok vs => rw [hrec] at this; simp [isErr] at this

theorem eq_error_of_isErr {α : Type} (r : Except MalformedPayloadError α)
    (h : isErr r) : r = Except.error MalformedPayloadError.mk := by
  cases r with
  | error e => cases e; rfl
  | ok v => simp [isErr] at h

/-! ### Loader (etl.py lines 138-212, models.py)

Seven tables, each an association list keyed by its primary key: `pokemon`
by id, the reference tables `type`/`ability`/`stat` by id, and the three
association tables by the composite `(pokemon_id, ref_id)`. -/

/-- Non-key columns of the `pokemon` table (the `loaded_at` server
timestamp is outside the model). -/
structure PokemonRow : Type where
  name : String
  base_experience : Option Int
  height_cm : Int
  weight_kg : ℚ
  bmi : Option ℚ
  sprite_url : Option String
deriving DecidableEq

structure Store : Type where
  pokemon : List (Int × PokemonRow)
  type_ : List (Int × String)
  ability : List (Int × String)
  stat : List (Int × String)
  pokemon_type : List ((Int × Int) × Int)
  pokemon_ability : List ((Int × Int) × (Bool × Int))
  pokemon_stat : List ((Int × Int) × (Int × Int))
deriving DecidableEq

def pokemonRowOf (tp : TPokemon) : PokemonRow :=
  { name := tp.name
    base_experience := tp.base_experience
    height_cm := tp.height_cm
    weight_kg := tp.weight_kg
    bmi := tp.bmi
    sprite_url := tp.sprite_url }

/-- The `(id, name)` assignments the batch makes to `type_map`. -/
def typeRefWrites (batch : List TPokemon) : List (Int × String) :=
  batch.flatMap (fun tp => tp.types.map (fun x => (x.1, x.2.1)))

def abilityRefWrites (batch : List TPokemon) : List (Int × String) :=
  batch.flatMap (fun tp => tp.abilities.map (fun x => (x.1, x.2.1)))

def statRefWrites (batch : List TPokemon) : List (Int × String) :=
  batch.flatMap (fun tp => tp.stats.map (fun x => (x.1, x.2.1)))

/-- `upsert_reference_batch` (etl.py lines 138-157): build the three dicts
over the whole batch, then merge each distinct entry once. -/
def upsert_reference_batch (db : Store) (batch : List TPokemon) : Store :=
  let type_map := applyW (typeRefWrites batch) []
  let ability_map := applyW (abilityRefWrites batch) []
  let stat_map := applyW (statRefWrites batch) []
  { db with
    type_ := applyW type_map db.type_
    ability := applyW ability_map db.ability
    stat := applyW stat_map db.stat }

def ptWrites (tp : TPokemon) : List ((Int × Int) × Int) :=
  tp.types.map (fun x => ((tp.id, x.1), x.2.2))

def paWrites (tp : TPokemon) : List ((Int × Int) × (Bool × Int)) :=
  tp.abilities.map (fun x => ((tp.id, x.1), (x.2.2.1, x.2.2.2)))

def psWrites (tp : TPokemon) : List ((Int × Int) × (Int × Int)) :=
  tp.stats.map (fun x => ((tp.id, x.1), (x.2.2.1, x.2.2.2)))

/-- `upsert_pokemon` (etl.py lines 160-196): merge the core row, then each
junction row keyed by its composite primary key. -/
def upsert_pokemon (db : Store) (tp : TPokemon) : Store :=
  { db with
    pokemon := upsertA tp.id (pokemonRowOf tp) db.pokemon
    pokemon_type := applyW (ptWrites tp) db.pokemon_type
    pokemon_ability := applyW (paWrites tp) db.pokemon_ability
    pokemon_stat := applyW (psWrites tp) db.pokemon_stat }

/-- `load_batch` (etl.py lines 207-212): reference upserts, then one
`upsert_pokemon` per record, returning `len(batch)`. -/
def load_batch (db : Store) (batch : List TPokemon) : Store × Nat :=
  (batch.foldl upsert_pokemon (upsert_reference_batch db batch), batch.length)

def pokemonWrites (batch : List TPokemon) : List (Int × PokemonRow) :=
  batch.map (fun tp => (tp.id, pokemonRowOf tp))

theorem foldl_upsert_pokemon_pokemon (batch : List TPokemon) (db : Store) :
    (batch.foldl upsert_pokemon db).pokemon =
      applyW (pokemonWrites batch) db.pokemon := by
  induction batch generalizing db with
  | nil => rfl
  | cons tp bs ih => simp [pokemonWrites, applyW, ih, upsert_pokemon]

theorem foldl_upsert_pokemon_pt (batch : List TPokemon) (db : Store) :
    (batch.foldl upsert_pokemon db).pokemon_type =
      applyW (batch.flatMap ptWrites) db.pokemon_type := by
  induction batch generalizing db with
  | nil => rfl
  | cons tp bs ih =>
    show (bs.foldl upsert_pokemon (upsert_pokemon db tp)).pokemon_type = _
    rw [ih, List.flatMap_cons, applyW_append]
    rfl

theorem foldl_upsert_pokemon_pa (batch : List TPokemon) (db : Store) :
    (batch.foldl upsert_pokemon db).pokemon_ability =
      applyW (batch.flatMap paWrites) db.pokemon_ability := by
  induction batch generalizing db with
  | nil => rfl
  | cons tp bs ih =>
    show (bs.foldl upsert_pokemon (upsert_pokemon db tp)).pokemon_ability = _
    rw [ih, List.flatMap_cons, applyW_append]
    rfl

theorem foldl_upsert_pokemon_ps (batch : List TPokemon) (db : Store) :
    (batch.foldl upsert_pokemon db).pokemon_stat =
      applyW (batch.flatMap psWrites) db.pokemon_stat := by
  induction batch generalizing db with
  | nil => rfl
  | cons tp bs ih =>
    show (bs.foldl upsert_pokemon (upsert_pokemon db tp)).pokemon_stat = _
    rw [ih, List.flatMap_cons, applyW_append]
    rfl

theorem foldl_upsert_pokemon_refs (batch : List TPokemon) (db : Store) :
    (batch.foldl upsert_pokemon db).type_ = db.type_ ∧
      (batch.foldl upsert_pokemon db).ability = db.ability ∧
      (batch.foldl upsert_pokemon db).stat = db.stat := by
  induction batch generalizing db with
  | nil => exact ⟨rfl, rfl, rfl⟩
  | cons tp bs ih => exact ih (upsert_pokemon db tp)

theorem load_batch_pokemon (db : Store) (batch : List TPokemon) :
    (load_batch db batch).1.pokemon = applyW (pokemonWrites batch) db.pokemon :=
  foldl_upsert_pokemon_pokemon batch (upsert_reference_batch db batch)

theorem load_batch_type (db : Store) (batch : List TPokemon) :
    (load_batch db batch).1.type_ =
      applyW (applyW (typeRefWrites batch) []) db.type_ :=
  (foldl_upsert_pokemon_refs batch (upsert_reference_batch db batch)).1

theorem load_batch_ability (db : Store) (batch : List TPokemon) :
    (load_batch db batch).1.ability =
      applyW (applyW (abilityRefWrites batch) []) db.ability :=
  (foldl_upsert_pokemon_refs batch (upsert_reference_batch db batch)).2.1

theorem load_batch_stat (db : Store) (batch : List TPokemon) :
    (load_batch db batch).1.stat =
      applyW (applyW (statRefWrites batch) []) db.stat :=
  (foldl_upsert_pokemon_refs batch (upsert_reference_batch db batch)).2.2

theorem load_batch_pt (db : Store) (batch : List TPokemon) :
    (load_batch db batch).1.pokemon_type =
      applyW (batch.flatMap ptWrites) db.pokemon_type :=
  foldl_upsert_pokemon_pt batch (upsert_reference_batch db batch)

theorem load_batch_pa (db : Store) (batch : List TPokemon) :
    (load_batch db batch).1.pokemon_ability =
      applyW (batch.flatMap paWrites) db.pokemon_ability :=
  foldl_upsert_pokemon_pa batch (upsert_reference_batch db batch)

theorem load_batch_ps (db : Store) (batch : List TPokemon) :
    (load_batch db batch).1.pokemon_stat =
      applyW (batch.flatMap psWrites) db.pokemon_stat :=
  foldl_upsert_pokemon_ps batch (upsert_reference_batch db batch)

/-! ### Fetcher (etl.py lines 31-64)

The network is an oracle: for each target, attempt index `i` yields either
a payload or a `NetworkError`.  `_fetch_json` tries attempts
`0, 1, ..., MAX_RETRIES - 1`, returns the first success, remembers the last
failure, and after the loop asserts that a failure was recorded and
re-raises it; a failed `assert` is `assertionFailed`.  The fixed
`asyncio.sleep(0.5)` between attempts has no observable effect in this
model.  `asyncio.gather` returns the index-aligned result list, or the
failure if any task failed (all-or-nothing). -/

structure NetworkError : Type where
  code : Nat
deriving DecidableEq

inductive FetchError : Type
  | network (e : NetworkError)
  | assertionFailed
deriving DecidableEq

inductive PersistenceError : Type
  | mk
deriving DecidableEq

inductive PipeError : Type
  | fetch (e : FetchError)
  | malformed (e : MalformedPayloadError)
  | persistence (e : PersistenceError)
deriving DecidableEq

/-- The retry loop of `_fetch_json`: `k` attempts remain, the next attempt
has index `i`, and `last` is the most recent recorded failure. -/
def fetchGo (resp : Nat → Except NetworkError RawPayload) :
    Nat → Nat → Option NetworkError → Except FetchError RawPayload
  | 0, _, last =>
    match last with
    | some e => Except.error (FetchError.network e)
    | none => Except.error FetchError.assertionFailed
  | k + 1, i, _ =>
    match resp i with
    | Except.ok p => Except.ok p
    | Except.error e => fetchGo resp k (i + 1) (some e)

/-- `_fetch_json` (etl.py lines 31-43). -/
def _fetch_json (maxRetries : Nat)
    (resp : Nat → Except NetworkError RawPayload) : Except FetchError RawPayload :=
  fetchGo resp maxRetries 0 none

/-- `fetch_pokemon_details` (etl.py lines 54-64): one `_fetch_json` per
target, results index-aligned, any failure failing the whole call. -/
def fetch_pokemon_details (maxRetries : Nat) (targets : List String)
    (resp : String → Nat → Except NetworkError RawPayload) :
    Except FetchError (List RawPayload) :=
  mapME (fun t => _fetch_json maxRetries (resp t)) targets

/-! ### Orchestrator (pipeline.py, db.py) -/

/-- `extract_transform` (etl.py lines 199-204): fetch all details for the
listing's names, then transform each payload. -/
def extract_transform (maxRetries : Nat) (listing : List String)
    (resp : String → Nat → Except NetworkError RawPayload) :
    Except PipeError (List TPokemon) :=
  match fetch_pokemon_details maxRetries listing resp with
  | Except.error e => Except.error (PipeError.fetch e)
  | Except.ok details =>
    match mapME transform_one details with
    | Except.error e => Except.error (PipeError.malformed e)
    | Except.ok items => Except.ok items

/-- `session_scope` (db.py lines 35-49): run the body against the store
inside one transaction; on success commit (publish the body's resulting
store), on failure roll back (keep the original store) and re-raise. -/
def session_scope {α : Type} (db : Store)
    (body : Store → Except PersistenceError (Store × α)) :
    Store × Except PersistenceError α :=
  match body db with
  | Except.ok (s, a) => (s, Except.ok a)
  | Except.error e => (db, Except.error e)

/-- `run_etl` (pipeline.py lines 11-21): extract and transform, then load
the batch inside `session_scope`, returning `(len(items), loaded)`.  The
first component of the result is the persisted store after the run. -/
def run_etl (db : Store) (maxRetries : Nat) (listing : List String)
    (resp : String → Nat → Except NetworkError RawPayload) :
    Store × Except PipeError (Nat × Nat) :=
  match extract_transform maxRetries listing resp with
  | Except.error e => (db, Except.error e)
  | Except.ok items =>
    match session_scope db (fun s => Except.ok (load_batch s items)) with
    | (db', Except.ok loaded) => (db', Except.ok (items.length, loaded))
    | (db', Except.error e) => (db', Except.error (PipeError.persistence e))

/-! ### Admission control (etl.py lines 54-64, spec section 5)

`fetch_pokemon_details` gates each fetch with
`asyncio.Semaphore(MAX_CONCURRENCY)`.  The counting-semaphore discipline is
a transition system: a pending fetch may start only by taking a free slot,
and a running fetch returns its slot when it finishes. -/

structure SemState : Type where
  pending : Nat
  running : Nat
  avail : Nat
  done : Nat
deriving DecidableEq

inductive SemStep : SemState → SemState → Prop
  | start (s : SemState) (hp : 0 < s.pending) (ha : 0 < s.avail) :
      SemStep s ⟨s.pending - 1, s.running + 1, s.avail - 1, s.done⟩
  | finish (s : SemState) (hr : 0 < s.running) :
      SemStep s ⟨s.pending, s.running - 1, s.avail + 1, s.done + 1⟩

/-- States reachable while fetching `n` targets under a semaphore
initialised with `cap` slots. -/
inductive SemReach (cap n : Nat) : SemState → Prop
  | init : SemReach cap n ⟨n, 0, cap, 0⟩
  | step {s s' : SemState} : SemReach cap n s → SemStep s s' → SemReach cap n s'

theorem semReach_running_add_avail {cap n : Nat} {s : SemState}
    (h : SemReach cap n s) : s.running + s.avail = cap := by
  induction h with
  | init => simp
  | step _ hstep ih =>
    cases hstep with
    | start hp ha => simp only; omega
    | finish hr => simp only; omega

/-! ### Fetch retry lemmas -/

theorem fetchGo_congr (r₁ r₂ : Nat → Except NetworkError RawPayload)
    (k i : Nat) (last : Option NetworkError)
    (h : ∀ j, i ≤ j → j < i + k → r₁ j = r₂ j) :
    fetchGo r₁ k i last = fetchGo r₂ k i last := by
  induction k generalizing i last with
  | zero => rfl
  | succ k ih =>
    have hi : r₁ i = r₂ i := h i le_rfl (by omega)
    simp only [fetchGo, hi]
    cases r₂ i with
    | ok p => rfl
    | error e => exact ih (i + 1) (some e) (fun j hj₁ hj₂ => h j (by omega) (by omega))

theorem isErr_fetchGo_of_allFail (resp : Nat → Except NetworkError RawPayload)
    (k i : Nat) (last : Option NetworkError)
    (h : ∀ j, i ≤ j → j < i + k → isErr (resp j)) :
    isErr (fetchGo resp k i last) := by
  induction k generalizing i last with
  | zero => cases last <;> simp [fetchGo, isErr]
  | succ k ih =>
    have hi : isErr (resp i) := h i le_rfl (by omega)
    cases hr : resp i with
    | ok p => rw [hr] at hi; simp [isErr] at hi
    | error e =>
      simp only [fetchGo, hr]
      exact ih (i + 1) (some e) (fun j hj₁ hj₂ => h j (by omega) (by omega))

theorem fetchGo_ne_assertion_of_some (resp : Nat → Except NetworkError RawPayload)
    (k i : Nat) (e : NetworkError) :
    fetchGo resp k i (some e) ≠ Except.error FetchError.assertionFailed := by
  induction k generalizing i e with
  | zero => simp [fetchGo]
  | succ k ih =>
    simp only [fetchGo]
    cases resp i with
    | ok p => simp
    | error e' => exact ih (i + 1) e'

/-! ### Shape of a successful transform -/

theorem transform_one_ok_fields (p : RawPayload) (t : TPokemon)
    (h : transform_one p = Except.ok t) :
    ∃ hv wv, p.height = some hv ∧ p.weight = some wv ∧
      t.height_cm = _to_cm hv ∧ t.weight_kg = _to_kg wv ∧
      t.bmi = _bmi t.height_cm t.weight_kg := by
  unfold transform_one at h
  rcases hid : p.id with _ | pid <;> rw [hid] at h <;>
    rcases hnm : p.name with _ | nm <;> rw [hnm] at h <;>
      rcases hh : p.height with _ | hv <;> rw [hh] at h <;>
        rcases hw : p.weight with _ | wv <;> rw [hw] at h <;>
          try simp at h
  cases hts : mapME transformTypeEntry p.types <;> rw [hts] at h
  case error e => simp at h
  case ok ts =>
    cases hab : mapME transformAbilityEntry p.abilities <;> rw [hab] at h
    case error e => simp at h
    case ok ab =>
      cases hst : mapME transformStatEntry p.stats <;> rw [hst] at h
      case error e => simp at h
      case ok st =>
        refine ⟨hv, wv, rfl, rfl, ?_, ?_, ?_⟩ <;>
          · injection h with h'
            subst h'
            rfl

/-! ### Concrete inputs used by the witnesses -/

def emptyStore : Store := ⟨[], [], [], [], [], [], []⟩

/-- A well-formed minimal detail payload (height raw 7, weight raw 69, one
type reference with locator `.../type/12/`). -/
def posPayload : RawPayload :=
  { id := some 1
    name := some "bulbasaur"
    base_experience := some 64
    height := some 7
    weight := some 69
    sprites_front_default := some "img"
    types := [⟨some 1, some "grass", some "https://pokeapi.co/api/v2/type/12/"⟩]
    abilities := []
    stats := [] }

/-- The canonical record `transform_one` produces from `posPayload`. -/
def posRecord : TPokemon :=
  { id := 1
    name := "bulbasaur"
    base_experience := some 64
    height_cm := _to_cm 7
    weight_kg := _to_kg 69
    bmi := _bmi (_to_cm 7) (_to_kg 69)
    sprite_url := some "img"
    types := [(12, "grass", 1)]
    abilities := []
    stats := [] }

example : transform_one posPayload = Except.ok posRecord := rfl

/-- A payload with a negative raw height, which `transform_one` accepts. -/
def negHeightPayload : RawPayload :=
  { id := some 1
    name := some "x"
    base_experience := none
    height := some (-1)
    weight := some 69
    sprites_front_default := none
    types := []
    abilities := []
    stats := [] }

def negHeightRecord : TPokemon :=
  { id := 1
    name := "x"
    base_experience := none
    height_cm := _to_cm (-1)
    weight_kg := _to_kg 69
    bmi := _bmi (_to_cm (-1)) (_to_kg 69)
    sprite_url := none
    types := []
    abilities := []
    stats := [] }

example : transform_one negHeightPayload = Except.ok negHeightRecord := rfl
example : negHeightRecord.bmi = none := by
  simp [negHeightRecord, _bmi, _to_cm, _to_kg]

/-! ### Claim C2 -/

/-- C2 counterexample: a payload with raw height `-1` is accepted by
`transform_one` and yields `bmi = none` with `height_cm = -10 ≠ 0`, so
"`bmi` is null only if `height_cm` is 0" fails over all integer heights
the transform can produce. -/
theorem bmi_guard_counterexample :
    transform_one negHeightPayload = Except.ok negHeightRecord ∧
    negHeightRecord.bmi = none ∧ negHeightRecord.height_cm ≠ 0 := by
  refine ⟨rfl, ?_, by decide⟩
  simp [negHeightRecord, _bmi, _to_cm, _to_kg]

/-- C2 (amended): for every payload accepted by `transform_one`, the record
has `bmi = weight_kg / (height_cm/100)^2` whenever `height_cm > 0`, and
`bmi` is null if and only if `height_cm ≤ 0` (for the non-negative heights
of real payloads this is exactly "null iff `height_cm = 0`"). -/
theorem transform_bmi_guard (p : RawPayload) (t : TPokemon)
    (h : transform_one p = Except.ok t) :
    (0 < t.height_cm →
      t.bmi = some (t.weight_kg / (((t.height_cm : ℚ) / 100) ^ 2))) ∧
    (t.bmi = none ↔ t.height_cm ≤ 0) := by
  obtain ⟨hv, wv, -, -, -, -, hbmi⟩ := transform_one_ok_fields p t h
  rw [hbmi]
  unfold _bmi
  constructor
  · intro hpos
    have hq : (0 : ℚ) < (t.height_cm : ℚ) / 100 := by
      have hc : (0 : ℚ) < (t.height_cm : ℚ) := by exact_mod_cast hpos
      linarith
    rw [if_pos hq, sq]
  · by_cases hq : (0 : ℚ) < (t.height_cm : ℚ) / 100
    · rw [if_pos hq]
      have hpos : 0 < t.height_cm := by
        have hc : (0 : ℚ) < (t.height_cm : ℚ) := by linarith
        exact_mod_cast hc
      exact ⟨fun hc => absurd hc (by simp), fun hle => absurd hle (by omega)⟩
    · rw [if_neg hq]
      have hle : t.height_cm ≤ 0 := by
        by_contra hlt
        push_neg at hlt
        have hc : (0 : ℚ) < (t.height_cm : ℚ) := by exact_mod_cast hlt
        exact hq (by linarith)
      exact ⟨fun _ => hle, fun _ => rfl⟩

/-- C2 witness: the amended claim at the concrete payload `posPayload`. -/
theorem transform_bmi_guard_witness :
    (0 < posRecord.height_cm →
      posRecord.bmi = some (posRecord.weight_kg / (((posRecord.height_cm : ℚ) / 100) ^ 2))) ∧
    (posRecord.bmi = none ↔ posRecord.height_cm ≤ 0) :=
  transform_bmi_guard posPayload posRecord rfl

/-! ### Claim C3 -/

/-- The exact quotient `w / 10` is a dyadic rational — and hence storable
in a binary64 float at all — exactly when `5` divides `w`. -/
theorem isDyadic_to_kg_iff (w : Int) : IsDyadic (_to_kg w) ↔ (5 : Int) ∣ w := by
  constructor
  · rintro ⟨m, k, hq⟩
    have h2 : (w : ℚ) * 2 ^ k = 10 * m := by
      have h2k : ((2 : ℚ)) ^ k ≠ 0 := by positivity
      field_simp [_to_kg] at hq
      linear_combination hq
    have hz : w * 2 ^ k = 10 * m := by exact_mod_cast h2
    have h5 : (5 : Int) ∣ w * 2 ^ k := ⟨2 * m, by linarith⟩
    have hp : Prime (5 : Int) := by norm_num
    rcases hp.dvd_mul.mp h5 with hd | hd
    · exact hd
    · exact absurd (hp.dvd_of_dvd_pow hd) (by norm_num)
  · rintro ⟨j, rfl⟩
    refine ⟨j, 1, ?_⟩
    simp only [_to_kg]
    push_cast
    field_simp
    ring

/-- C3 counterexample: `posPayload` carries raw weight 69; the exact
quotient `69/10` the claim requires `weight_kg` to hold is not a dyadic
rational, so no IEEE binary64 value — in particular not the double the
program computes with `69 / 10.0` — equals it: the conversion is not exact
for every non-negative integer raw weight. -/
theorem unit_conversion_counterexample :
    transform_one posPayload = Except.ok posRecord ∧
    posRecord.weight_kg = 69 / 10 ∧ ¬IsDyadic posRecord.weight_kg := by
  refine ⟨rfl, by norm_num [posRecord, _to_kg], fun hdy => ?_⟩
  have h5 : (5 : Int) ∣ 69 := (isDyadic_to_kg_iff 69).1 hdy
  norm_num at h5

/-- C3 (amended): the height conversion is exact — `height_cm` equals the
raw height times 10 for every integer (Python int arithmetic is exact) —
while the weight conversion `hg / 10.0` runs in IEEE binary64, whose values
are dyadic rationals: the exact quotient `hg / 10` is dyadic, and hence can
be what the float stores, precisely when `5` divides `hg` (subject further
to 53-bit/range limits outside this model); for raw weights like 69 it is
not exact. -/
theorem unit_conversion_amended (p : RawPayload) (t : TPokemon) (hv wv : Int)
    (h : transform_one p = Except.ok t) (hh : p.height = some hv)
    (hw : p.weight = some wv) (hv0 : 0 ≤ hv) (hw0 : 0 ≤ wv) :
    t.height_cm = hv * 10 ∧ (IsDyadic (_to_kg wv) ↔ (5 : Int) ∣ wv) := by
  obtain ⟨hv', wv', hh', hw', hcm, -, -⟩ := transform_one_ok_fields p t h
  rw [hh] at hh'
  obtain rfl : hv = hv' := Option.some.inj hh'
  exact ⟨hcm, isDyadic_to_kg_iff wv⟩

/-- C3 witness: raw height 7 gives exactly 70 cm, and raw weight 69 (not a
multiple of 5) has no dyadic — hence no float-exact — quotient. -/
theorem unit_conversion_amended_witness :
    posRecord.height_cm = 7 * 10 ∧ (IsDyadic (_to_kg 69) ↔ (5 : Int) ∣ 69) :=
  unit_conversion_amended posPayload posRecord 7 69 rfl rfl rfl
    (by decide) (by decide)

/-! ### Claim C4 -/

/-- C4: the extracted cross-reference id equals the integer obtained by
splitting the locator on `'/'`, dropping the empty trailing segment, and
parsing the last segment — on every locator string — and in particular a
locator ending `.../type/12/` yields id 12. -/
theorem id_extraction_spec :
    (∀ url : String, id_from_url url = spec_ref_id url) ∧
    id_from_url "https://pokeapi.co/api/v2/type/12/" = some 12 := by
  refine ⟨fun url => idFromUrlCore_eq_specRefIdCore url.data, ?_⟩
  decide

/-! ### Claim C8 -/

theorem transformTypeEntry_err (t : RawTypeEntry)
    (h : t.type_name.isNone || t.type_url.isNone || t.slot.isNone) :
    transformTypeEntry t = Except.error MalformedPayloadError.mk := by
  rcases hn : t.type_name with _ | n <;> rcases hu : t.type_url with _ | u <;>
    rcases hs : t.slot with _ | s <;>
      simp_all [transformTypeEntry]

theorem transformAbilityEntry_err (a : RawAbilityEntry)
    (h : a.ability_name.isNone || a.ability_url.isNone ||
      a.is_hidden.isNone || a.slot.isNone) :
    transformAbilityEntry a = Except.error MalformedPayloadError.mk := by
  rcases hn : a.ability_name with _ | n <;> rcases hu : a.ability_url with _ | u <;>
    rcases hh : a.is_hidden with _ | b <;> rcases hs : a.slot with _ | s <;>
      simp_all [transformAbilityEntry]

theorem transformStatEntry_err (s : RawStatEntry)
    (h : s.stat_name.isNone || s.stat_url.isNone ||
      s.base_stat.isNone || s.effort.isNone) :
    transformStatEntry s = Except.error MalformedPayloadError.mk := by
  rcases hn : s.stat_name with _ | n <;> rcases hu : s.stat_url with _ | u <;>
    rcases hb : s.base_stat with _ | b <;> rcases he : s.effort with _ | e <;>
      simp_all [transformStatEntry]

/-- C8: a payload missing an expected field makes `transform_one` fail with
`MalformedPayloadError` — no retry exists in the transform, and no partial
record is produced (the result is the error, not a record). -/
theorem transform_missing_field_errors (p : RawPayload)
    (h : hasMissingField p = true) :
    transform_one p = Except.error MalformedPayloadError.mk := by
  unfold transform_one
  rcases hid : p.id with _ | pid <;>
    rcases hnm : p.name with _ | nm <;>
      rcases hh : p.height with _ | hv <;>
        rcases hw : p.weight with _ | wv <;>
          try rfl
  -- all four scalars present: a list entry is missing a subfield
  unfold hasMissingField at h
  rw [hid, hnm, hh, hw] at h
  simp only [Option.isNone_some, Bool.false_or, Bool.or_eq_true] at h
  rcases h with (hT | hA) | hS
  · rw [List.any_eq_true] at hT
    obtain ⟨t, ht, hm⟩ := hT
    have he := isErr_mapME_of_mem transformTypeEntry p.types t ht
      (by rw [transformTypeEntry_err t hm]; rfl)
    rw [eq_error_of_isErr _ he]
    simp
  · rw [List.any_eq_true] at hA
    obtain ⟨a, ha, hm⟩ := hA
    have he := isErr_mapME_of_mem transformAbilityEntry p.abilities a ha
      (by rw [transformAbilityEntry_err a hm]; rfl)
    rw [eq_error_of_isErr _ he]
    cases mapME transformTypeEntry p.types with
    | error e => cases e; simp
    | ok ts => simp
  · rw [List.any_eq_true] at hS
    obtain ⟨s, hs, hm⟩ := hS
    have he := isErr_mapME_of_mem transformStatEntry p.stats s hs
      (by rw [transformStatEntry_err s hm]; rfl)
    rw [eq_error_of_isErr _ he]
    cases mapME transformTypeEntry p.types with
    | error e => cases e; simp
    | ok ts =>
      cases mapME transformAbilityEntry p.abilities with
      | error e => cases e; simp
      | ok ab => simp

/-- C8 witness: `posPayload` with its height removed is rejected. -/
theorem transform_missing_field_errors_witness :
    transform_one
      { id := some 1
        name := some "bulbasaur"
        base_experience := some 64
        height := none
        weight := some 69
        sprites_front_default := some "img"
        types := [⟨some 1, some "grass", some "https://pokeapi.co/api/v2/type/12/"⟩]
        abilities := []
        stats := [] } = Except.error MalformedPayloadError.mk :=
  transform_missing_field_errors _ (by decide)

/-! ### Claim C1 -/

/-- C1: `load_batch` is idempotent — loading the same batch a second time
against the resulting store leaves every table's row count and every row's
looked-up field values unchanged (no duplicate Pokemon, reference, or
association rows; no attribute accumulates). -/
theorem load_batch_idempotent (db : Store) (batch : List TPokemon) :
    ((load_batch (load_batch db batch).1 batch).1.pokemon.length =
        (load_batch db batch).1.pokemon.length ∧
      (load_batch (load_batch db batch).1 batch).1.type_.length =
        (load_batch db batch).1.type_.length ∧
      (load_batch (load_batch db batch).1 batch).1.ability.length =
        (load_batch db batch).1.ability.length ∧
      (load_batch (load_batch db batch).1 batch).1.stat.length =
        (load_batch db batch).1.stat.length ∧
      (load_batch (load_batch db batch).1 batch).1.pokemon_type.length =
        (load_batch db batch).1.pokemon_type.length ∧
      (load_batch (load_batch db batch).1 batch).1.pokemon_ability.length =
        (load_batch db batch).1.pokemon_ability.length ∧
      (load_batch (load_batch db batch).1 batch).1.pokemon_stat.length =
        (load_batch db batch).1.pokemon_stat.length) ∧
    ((∀ k, lookupA k (load_batch (load_batch db batch).1 batch).1.pokemon =
        lookupA k (load_batch db batch).1.pokemon) ∧
      (∀ k, lookupA k (load_batch (load_batch db batch).1 batch).1.type_ =
        lookupA k (load_batch db batch).1.type_) ∧
      (∀ k, lookupA k (load_batch (load_batch db batch).1 batch).1.ability =
        lookupA k (load_batch db batch).1.ability) ∧
      (∀ k, lookupA k (load_batch (load_batch db batch).1 batch).1.stat =
        lookupA k (load_batch db batch).1.stat) ∧
      (∀ k, lookupA k (load_batch (load_batch db batch).1 batch).1.pokemon_type =
        lookupA k (load_batch db batch).1.pokemon_type) ∧
      (∀ k, lookupA k (load_batch (load_batch db batch).1 batch).1.pokemon_ability =
        lookupA k (load_batch db batch).1.pokemon_ability) ∧
      (∀ k, lookupA k (load_batch (load_batch db batch).1 batch).1.pokemon_stat =
        lookupA k (load_batch db batch).1.pokemon_stat)) := by
  refine ⟨⟨?_, ?_, ?_, ?_, ?_, ?_, ?_⟩, ?_, ?_, ?_, ?_, ?_, ?_, ?_⟩
  · rw [load_batch_pokemon ((load_batch db batch).1) batch, load_batch_pokemon db batch]
    exact length_applyW_applyW _ _
  · rw [load_batch_type ((load_batch db batch).1) batch, load_batch_type db batch]
    exact length_applyW_applyW _ _
  · rw [load_batch_ability ((load_batch db batch).1) batch, load_batch_ability db batch]
    exact length_applyW_applyW _ _
  · rw [load_batch_stat ((load_batch db batch).1) batch, load_batch_stat db batch]
    exact length_applyW_applyW _ _
  · rw [load_batch_pt ((load_batch db batch).1) batch, load_batch_pt db batch]
    exact length_applyW_applyW _ _
  · rw [load_batch_pa ((load_batch db batch).1) batch, load_batch_pa db batch]
    exact length_applyW_applyW _ _
  · rw [load_batch_ps ((load_batch db batch).1) batch, load_batch_ps db batch]
    exact length_applyW_applyW _ _
  · intro k
    rw [load_batch_pokemon ((load_batch db batch).1) batch, load_batch_pokemon db batch]
    exact lookupA_applyW_applyW _ _ _
  · intro k
    rw [load_batch_type ((load_batch db batch).1) batch, load_batch_type db batch]
    exact lookupA_applyW_applyW _ _ _
  · intro k
    rw [load_batch_ability ((load_batch db batch).1) batch, load_batch_ability db batch]
    exact lookupA_applyW_applyW _ _ _
  · intro k
    rw [load_batch_stat ((load_batch db batch).1) batch, load_batch_stat db batch]
    exact lookupA_applyW_applyW _ _ _
  · intro k
    rw [load_batch_pt ((load_batch db batch).1) batch, load_batch_pt db batch]
    exact lookupA_applyW_applyW _ _ _
  · intro k
    rw [load_batch_pa ((load_batch db batch).1) batch, load_batch_pa db batch]
    exact lookupA_applyW_applyW _ _ _
  · intro k
    rw [load_batch_ps ((load_batch db batch).1) batch, load_batch_ps db batch]
    exact lookupA_applyW_applyW _ _ _

/-! ### Claim C5 -/

theorem exists_error_of_isErr {ε α : Type} (r : Except ε α)
    (h : isErr r = true) : ∃ e, r = Except.error e := by
  cases r with
  | error e => exact ⟨e, rfl⟩
  | ok v => simp [isErr] at h

theorem run_etl_err (db : Store) (mr : Nat) (listing : List String)
    (resp : String → Nat → Except NetworkError RawPayload) (e : PipeError)
    (hex : extract_transform mr listing resp = Except.error e) :
    run_etl db mr listing resp = (db, Except.error e) := by
  unfold run_etl
  rw [hex]

theorem run_etl_ok (db : Store) (mr : Nat) (listing : List String)
    (resp : String → Nat → Except NetworkError RawPayload) (items : List TPokemon)
    (hex : extract_transform mr listing resp = Except.ok items) :
    run_etl db mr listing resp =
      ((load_batch db items).1, Except.ok (items.length, items.length)) := by
  unfold run_etl
  rw [hex]
  exact rfl

theorem extract_ok_length (mr : Nat) (listing : List String)
    (resp : String → Nat → Except NetworkError RawPayload) (items : List TPokemon)
    (hex : extract_transform mr listing resp = Except.ok items) :
    items.length = listing.length := by
  cases hfd : fetch_pokemon_details mr listing resp with
  | error e =>
    have hch : extract_transform mr listing resp =
        Except.error (PipeError.fetch e) := by
      unfold extract_transform
      rw [hfd]
    rw [hch] at hex
    simp at hex
  | ok details =>
    have hch : extract_transform mr listing resp =
        (match mapME transform_one details with
          | Except.error e => Except.error (PipeError.malformed e)
          | Except.ok items => Except.ok items) := by
      unfold extract_transform
      rw [hfd]
    rw [hch] at hex
    cases hmt : mapME transform_one details with
    | error e => rw [hmt] at hex; simp at hex
    | ok items' =>
      rw [hmt] at hex
      obtain rfl : items' = items := by simpa using hex
      exact (length_mapME_ok _ details items' hmt).trans
        (length_mapME_ok _ listing details hfd)

/-- C5: on a successful run, `run_etl` returns `(requested, loaded)` with
`requested` the size of the fetched listing and `loaded` the `load_batch`
result, which always equals the size of the batch — hence
`requested = loaded`. -/
theorem run_etl_counts (db : Store) (mr : Nat) (listing : List String)
    (resp : String → Nat → Except NetworkError RawPayload)
    (db' : Store) (r l : Nat)
    (h : run_etl db mr listing resp = (db', Except.ok (r, l))) :
    r = listing.length ∧ l = r := by
  cases hex : extract_transform mr listing resp with
  | error e =>
    rw [run_etl_err db mr listing resp e hex] at h
    simp at h
  | ok items =>
    rw [run_etl_ok db mr listing resp items hex] at h
    have h2 : Except.ok (items.length, items.length) =
        (Except.ok (r, l) : Except PipeError (Nat × Nat)) := congrArg Prod.snd h
    have h3 := Except.ok.inj h2
    injection h3 with hr hl
    have hlen := extract_ok_length mr listing resp items hex
    exact ⟨by rw [← hr, hlen], by rw [← hl, ← hr]⟩

def respOK : String → Nat → Except NetworkError RawPayload :=
  fun _ _ => Except.ok posPayload

/-- C5 witness: a one-item run that succeeds returns `(1, 1)`. -/
theorem run_etl_counts_witness :
    (1 : Nat) = (["bulbasaur"] : List String).length ∧ (1 : Nat) = 1 :=
  run_etl_counts emptyStore 3 ["bulbasaur"] respOK
    (load_batch emptyStore [posRecord]).1 1 1 rfl

/-! ### Claim C6 -/

/-- C6: the batch is loaded inside one transaction — if the body fails, the
persisted store is left exactly as before the call and the error
propagates; if it succeeds (one `upsert_reference_batch` then
`upsert_pokemon` per record, which is `load_batch`), the resulting store is
committed. -/
theorem session_scope_tx (db : Store)
    (body : Store → Except PersistenceError (Store × Nat)) (e : PersistenceError)
    (batch : List TPokemon) :
    (body db = Except.error e → session_scope db body = (db, Except.error e)) ∧
    session_scope db (fun s => Except.ok (load_batch s batch)) =
      ((load_batch db batch).1, Except.ok (load_batch db batch).2) := by
  constructor
  · intro hb
    unfold session_scope
    rw [hb]
  · rfl

def failBody : Store → Except PersistenceError (Store × Nat) :=
  fun _ => Except.error PersistenceError.mk

/-- C6 witness: a failing body rolls back to the original (empty) store,
and a successful `load_batch` body commits. -/
theorem session_scope_tx_witness :
    session_scope emptyStore failBody = (emptyStore, Except.error PersistenceError.mk) ∧
    session_scope emptyStore (fun s => Except.ok (load_batch s [posRecord])) =
      ((load_batch emptyStore [posRecord]).1,
        Except.ok (load_batch emptyStore [posRecord]).2) :=
  ⟨(session_scope_tx emptyStore failBody PersistenceError.mk [posRecord]).1 rfl,
    (session_scope_tx emptyStore failBody PersistenceError.mk [posRecord]).2⟩

/-! ### Claim C7 -/

/-- C7: each fetch makes at most `MAX_RETRIES` attempts (the result depends
only on attempt indices below `MAX_RETRIES`), and if every attempt for one
listed target fails, `fetch_pokemon_details` returns no partial result list
(it fails) and `run_etl` fails with the store unchanged. -/
theorem fetch_retry_all_or_nothing (mr : Nat)
    (r₁ r₂ : Nat → Except NetworkError RawPayload) (db : Store)
    (listing : List String) (resp : String → Nat → Except NetworkError RawPayload)
    (nm : String) :
    ((∀ i, i < mr → r₁ i = r₂ i) → _fetch_json mr r₁ = _fetch_json mr r₂) ∧
    (nm ∈ listing → (∀ i, i < mr → isErr (resp nm i) = true) →
      isErr (fetch_pokemon_details mr listing resp) = true ∧
      (run_etl db mr listing resp).1 = db ∧
      isErr (run_etl db mr listing resp).2 = true) := by
  constructor
  · intro hagree
    exact fetchGo_congr r₁ r₂ mr 0 none (fun j hj₁ hj₂ => hagree j (by omega))
  · intro hmem hfail
    have hfj : isErr (_fetch_json mr (resp nm)) = true :=
      isErr_fetchGo_of_allFail (resp nm) mr 0 none (fun j hj₁ hj₂ => hfail j (by omega))
    have hfd : isErr (fetch_pokemon_details mr listing resp) = true :=
      isErr_mapME_of_mem _ listing nm hmem hfj
    obtain ⟨e, he⟩ := exists_error_of_isErr _ hfd
    have hex : extract_transform mr listing resp =
        Except.error (PipeError.fetch e) := by
      unfold extract_transform
      rw [he]
    refine ⟨hfd, ?_, ?_⟩
    · rw [run_etl_err db mr listing resp _ hex]
    · rw [run_etl_err db mr listing resp _ hex]
      rfl

def r1w : Nat → Except NetworkError RawPayload :=
  fun i => if i < 2 then Except.error ⟨0⟩ else Except.ok posPayload

def r2w : Nat → Except NetworkError RawPayload :=
  fun _ => Except.error ⟨0⟩

def respBad : String → Nat → Except NetworkError RawPayload :=
  fun _ _ => Except.error ⟨7⟩

/-- C7 witness: with 2 retries, two oracles agreeing on attempts 0 and 1
give the same outcome, and a target failing both attempts aborts the whole
one-item run leaving the empty store unchanged. -/
theorem fetch_retry_all_or_nothing_witness :
    _fetch_json 2 r1w = _fetch_json 2 r2w ∧
    (isErr (fetch_pokemon_details 2 ["bulbasaur"] respBad) = true ∧
      (run_etl emptyStore 2 ["bulbasaur"] respBad).1 = emptyStore ∧
      isErr (run_etl emptyStore 2 ["bulbasaur"] respBad).2 = true) :=
  ⟨(fetch_retry_all_or_nothing 2 r1w r2w emptyStore ["bulbasaur"] respBad
      "bulbasaur").1 (fun i hi => by simp [r1w, r2w, hi]),
    (fetch_retry_all_or_nothing 2 r1w r2w emptyStore ["bulbasaur"] respBad
      "bulbasaur").2 (List.mem_singleton.mpr rfl) (fun i _ => rfl)⟩

/-! ### Claim C9 -/

/-- C9: in every state reachable under the counting-semaphore discipline of
`fetch_pokemon_details`, at most `MAX_CONCURRENCY` (`cap`) detail fetches
are in flight. -/
theorem semaphore_bound (cap n : Nat) (s : SemState)
    (h : SemReach cap n s) : s.running ≤ cap := by
  have hinv := semReach_running_add_avail h
  omega

/-- C9 witness: after admitting one of two pending fetches under a cap of
8, one fetch is in flight, within the bound. -/
theorem semaphore_bound_witness : (SemState.mk 1 1 7 0).running ≤ 8 :=
  semaphore_bound 8 2 _
    (SemReach.step SemReach.init (SemStep.start _ (by decide) (by decide)))

/-! ### Claim C10 -/

/-- C10: with `MAX_RETRIES = 0` the retry loop makes no attempt (the
result is the same for every oracle) and fails with the assertion error;
with `MAX_RETRIES ≥ 1` the terminal assertion never fires. -/
theorem fetch_json_zero_retries (resp : Nat → Except NetworkError RawPayload)
    (mr : Nat) :
    _fetch_json 0 resp = Except.error FetchError.assertionFailed ∧
    (1 ≤ mr → _fetch_json mr resp ≠ Except.error FetchError.assertionFailed) := by
  constructor
  · rfl
  · intro hmr
    obtain ⟨k, rfl⟩ : ∃ k, mr = k + 1 := ⟨mr - 1, by omega⟩
    unfold _fetch_json
    simp only [fetchGo]
    cases resp 0 with
    | ok p => simp
    | error e => exact fetchGo_ne_assertion_of_some resp k 1 e

/-- C10 witness: zero configured retries attempt nothing and fail the
assertion; three retries never fail it. -/
theorem fetch_json_zero_retries_witness :
    _fetch_json 0 r2w = Except.error FetchError.assertionFailed ∧
    _fetch_json 3 r2w ≠ Except.error FetchError.assertionFailed :=
  ⟨(fetch_json_zero_retries r2w 3).1, (fetch_json_zero_retries r2w 3).2 (by omega)⟩

end PokePipeline
